import Mathlib

/-!
# Verification of the bingsu order-management core

Shallow embedding of the backend logic of the projectbingsu application:
the `Stock` model (`backend/models/Stock.js`, two variants), the `MenuCode`
model (`backend/models/MenuCode.js`), the `Order` model
(`backend/models/Order.js`) and the order-creation route
(`backend/routes/orders.js`, `POST /api/orders/create`).

Collections are modelled as lists of documents; a mongoose `save` of a
document found by `findOne` is modelled as replacing the first matching
document of the list.  Dates are integer timestamps; JS numbers that can
go negative (stock quantities and amounts) are `Int`, counters are `Nat`.
-/

namespace Bingsu

/-! ## Basic enumerations -/

inductive CupSize
  | S
  | M
  | L
deriving DecidableEq, Repr

inductive ItemType
  | flavor
  | topping
deriving DecidableEq, BEq, Repr

inductive OrderStatus
  | Pending
  | Preparing
  | Ready
  | Completed
  | Cancelled
deriving DecidableEq, Repr

inductive PaymentStatus
  | Unpaid
  | Paid
  | Refunded
deriving DecidableEq, Repr

/-! ## Stock model (`backend/models/Stock.js`) -/

structure Stock where
  itemType : ItemType
  name : String
  quantity : Int
  reorderLevel : Int
deriving DecidableEq, Repr

/-- The one error thrown by `reduceStock`:
`throw new Error('Insufficient stock for ...')`. -/
inductive StockError
  | insufficientStock (name : String)
deriving DecidableEq, Repr

/-- Lookup `this.findOne({ itemType, name })`. -/
def findStock (stocks : List Stock) (itemType : ItemType) (name : String) : Option Stock :=
  stocks.find? (fun s => s.itemType == itemType && s.name == name)

/-- Persisting the found document: replace the first entry matching
`(itemType, name)` by the updated one. -/
def saveStock (stocks : List Stock) (itemType : ItemType) (name : String) (upd : Stock) :
    List Stock :=
  match stocks with
  | [] => []
  | s :: rest =>
    if s.itemType == itemType && s.name == name then upd :: rest
    else s :: saveStock rest itemType name upd

/-- Embedding of `Stock.reduceStock(itemType, name, amount = 1)`.

The JS returns `null` (it does **not** throw) when no document matches,
throws `Insufficient stock` when `quantity < amount`, and otherwise
subtracts and saves.  The returned pair is (call result, collection
after the call). -/
def reduceStock (stocks : List Stock) (itemType : ItemType) (name : String) (amount : Int) :
    Except StockError (Option Stock) × List Stock :=
  match findStock stocks itemType name with
  | none => (Except.ok none, stocks)
  | some stock =>
    if stock.quantity < amount then
      (Except.error (StockError.insufficientStock name), stocks)
    else
      let updated : Stock := { stock with quantity := stock.quantity - amount }
      (Except.ok (some updated), saveStock stocks itemType name updated)

/-- Embedding of `Stock.getLowStockItems` as in `backend/models/Stock.js` variant one:
`$expr: { $lt: ['$quantity', '$reorderLevel'] }`. -/
def getLowStockItems (stocks : List Stock) : List Stock :=
  stocks.filter (fun s => decide (s.quantity < s.reorderLevel))

/-- Embedding of `Stock.getLowStockItems` as in the second `backend/models/Stock.js`
variant present in the repository:
`$expr: { $lte: ['$quantity', '$reorderLevel'] }`. -/
def getLowStockItemsLe (stocks : List Stock) : List Stock :=
  stocks.filter (fun s => decide (s.quantity ≤ s.reorderLevel))

/-! ## MenuCode model (`backend/models/MenuCode.js`) -/

structure UsedEntry where
  order : Option String
  usedAt : Int
deriving DecidableEq, Repr

structure MenuCode where
  code : String
  cupSize : CupSize
  usageCount : Nat
  maxUsage : Nat
  usedBy : List UsedEntry
  expiresAt : Int
deriving DecidableEq, Repr

inductive CodeError
  | invalidCode
  | codeExpired
  | usageLimitReached
deriving DecidableEq, Repr

/-- Character-wise uppercase, the embedding of JS `code.toUpperCase()`
(spelled over the character list so that it evaluates by `decide`/`rfl`). -/
def toUpperStr (s : String) : String :=
  ⟨s.data.map Char.toUpper⟩

/-- Lookup `this.findOne({ code: code.toUpperCase() })`. -/
def findCode (codes : List MenuCode) (code : String) : Option MenuCode :=
  codes.find? (fun c => c.code == toUpperStr code)

/-- Replace the first document with the given code by the updated one
(the `save` of the document found by `findOne`). -/
def saveCode (codes : List MenuCode) (code : String) (upd : MenuCode) : List MenuCode :=
  match codes with
  | [] => []
  | c :: rest =>
    if c.code == code then upd :: rest
    else c :: saveCode rest code upd

/-- The per-document body of `MenuCode.validateAndUse`: expiry check,
usage-limit check (`usageCount >= maxUsage`), then
`usageCount += 1` and `usedBy.push({ order, usedAt })`. -/
def useOnce (mc : MenuCode) (orderRef : Option String) (now : Int) : Except CodeError MenuCode :=
  if mc.expiresAt < now then Except.error CodeError.codeExpired
  else if mc.maxUsage ≤ mc.usageCount then Except.error CodeError.usageLimitReached
  else Except.ok
    { mc with
      usageCount := mc.usageCount + 1
      usedBy := mc.usedBy ++ [{ order := orderRef, usedAt := now }] }

/-- Embedding of `MenuCode.validateAndUse(code, orderId)`: `findOne` by upper-cased
code, the three checks, then save.  A thrown error leaves the
collection untouched (the save is never reached). -/
def validateAndUse (codes : List MenuCode) (code : String) (orderRef : Option String)
    (now : Int) : Except CodeError MenuCode × List MenuCode :=
  match findCode codes code with
  | none => (Except.error CodeError.invalidCode, codes)
  | some mc =>
    match useOnce mc orderRef now with
    | Except.error e => (Except.error e, codes)
    | Except.ok updated => (Except.ok updated, saveCode codes mc.code updated)

/-- Iterated redemption of one code document (each successful
`validateAndUse` saves the document back, so the next redemption sees
the incremented count). -/
def redeemTimes (mc : MenuCode) (now : Int) : Nat → Except CodeError MenuCode
  | 0 => Except.ok mc
  | n + 1 =>
    match redeemTimes mc now n with
    | Except.error e => Except.error e
    | Except.ok m => useOnce m none now

/-- Predicate of `MenuCode.cleanupExpired`:
`deleteMany({ usageCount: 0, expiresAt: { $lt: new Date() } })`. -/
def cleanupTarget (now : Int) (c : MenuCode) : Bool :=
  c.usageCount == 0 && decide (c.expiresAt < now)

/-- Embedding of `MenuCode.cleanupExpired()`: deletes the matching codes and returns
`deletedCount`.  Result: (remaining collection, number deleted). -/
def cleanupExpired (codes : List MenuCode) (now : Int) : List MenuCode × Nat :=
  (codes.filter (fun c => !cleanupTarget now c), codes.countP (cleanupTarget now))

/-! ## Order model (`backend/models/Order.js`) -/

structure Pricing where
  basePrice : Nat
  sizePrice : Nat
  toppingsPrice : Nat
  total : Nat
deriving DecidableEq, Repr

structure Topping where
  name : String
  points : Nat
deriving DecidableEq, Repr

structure OrderTimestamps where
  ordered : Int
  prepared : Option Int
  ready : Option Int
  completed : Option Int
deriving DecidableEq, Repr

structure Order where
  customerId : Option Nat
  menuCode : String
  customerCode : String
  cupSize : CupSize
  flavor : String
  toppings : List Topping
  pricing : Pricing
  status : OrderStatus
  paymentStatus : PaymentStatus
  specialInstructions : String
  timestamps : OrderTimestamps
  isFreeDrink : Bool
deriving DecidableEq, Repr

/-- Table `const sizePrices = { S: 0, M: 10, L: 20 }` of `calculateTotal`. -/
def sizePrices : CupSize → Nat
  | CupSize.S => 0
  | CupSize.M => 10
  | CupSize.L => 20

/-- Embedding of `order.calculateTotal()`:
`total = (pricing.basePrice || 60) + sizePrices[cupSize] + toppings.length * 10`;
the breakdown is written into `pricing`, and when `isFreeDrink` holds the
total (only the total) is overwritten with `0`.
The JS `|| 60` is the `basePrice = 0 → 60` branch. -/
def calculateTotal (o : Order) : Order :=
  let base := if o.pricing.basePrice = 0 then 60 else o.pricing.basePrice
  let sp := sizePrices o.cupSize
  let tp := o.toppings.length * 10
  let total := base + sp + tp
  { o with
    pricing :=
      { basePrice := o.pricing.basePrice
        sizePrice := sp
        toppingsPrice := tp
        total := if o.isFreeDrink then 0 else total } }

/-- Embedding of `order.updateStatus(newStatus)`: assigns the new status
unconditionally and stamps the timestamp matching the new status
(`Preparing`/`Ready`/`Completed`); there is no transition check of any
kind in the source. -/
def updateStatus (o : Order) (newStatus : OrderStatus) (now : Int) : Order :=
  let o1 := { o with status := newStatus }
  match newStatus with
  | OrderStatus.Preparing =>
    { o1 with timestamps := { o1.timestamps with prepared := some now } }
  | OrderStatus.Ready =>
    { o1 with timestamps := { o1.timestamps with ready := some now } }
  | OrderStatus.Completed =>
    { o1 with timestamps := { o1.timestamps with completed := some now } }
  | _ => o1

/-- The transition relation asserted by the specification (forward-only
`Pending → Preparing → Ready → Completed`, with `Cancelled` reachable
from any non-terminal state).  Stated from the spec's words for
comparison against `updateStatus`, which is translated from the source. -/
def specAllowedTransition : OrderStatus → OrderStatus → Bool
  | OrderStatus.Pending, OrderStatus.Preparing => true
  | OrderStatus.Preparing, OrderStatus.Ready => true
  | OrderStatus.Ready, OrderStatus.Completed => true
  | OrderStatus.Pending, OrderStatus.Cancelled => true
  | OrderStatus.Preparing, OrderStatus.Cancelled => true
  | OrderStatus.Ready, OrderStatus.Cancelled => true
  | _, _ => false

/-! ## Users and loyalty -/

structure User where
  id : Nat
  stamps : Nat
  totalFreeDrinks : Nat
  loyaltyPoints : Nat
  orderHistory : List String
deriving DecidableEq, Repr

/-- Modelled from the spec: the `User` model (with `addLoyaltyStamp`,
called by the order-creation route) is not among the source files.
Per §4.4 and the frontend `loyaltyCard` shape, a stamp is added per
paid order; when the count reaches the threshold of 10 it resets to 0,
`totalFreeDrinks` is incremented, and the caller is signalled that a
free drink was earned. -/
def addLoyaltyStamp (u : User) : Bool × User :=
  if 10 ≤ u.stamps + 1 then
    (true, { u with stamps := 0, totalFreeDrinks := u.totalFreeDrinks + 1 })
  else
    (false, { u with stamps := u.stamps + 1 })

def findUser (users : List User) (uid : Nat) : Option User :=
  users.find? (fun u => u.id == uid)

/-- Replace the first user with the given id by the updated one
(the `save` of the document found by `findById`). -/
def saveUser (users : List User) (uid : Nat) (upd : User) : List User :=
  match users with
  | [] => []
  | u :: rest =>
    if u.id == uid then upd :: rest
    else u :: saveUser rest uid upd

/-! ## Order-creation route (`backend/routes/orders.js`, `POST /api/orders/create`) -/

/-- The request body as the route reads it.  The route destructures only
`menuCode`, `shavedIce`, `toppings` and `specialInstructions`; a
client-supplied `cupSize` field is carried here to make explicit that
the route never reads it. -/
structure CreateRequest where
  menuCode : String
  flavor : String
  toppings : List Topping
  specialInstructions : String
  cupSize : Option CupSize
deriving DecidableEq, Repr

inductive CreateError
  | validationFailed
  | invalidMenuCode
  | menuCodeExpired
deriving DecidableEq, Repr

structure Store where
  stocks : List Stock
  codes : List MenuCode
  users : List User
  orders : List Order
deriving DecidableEq, Repr

structure CreateResult where
  order : Order
  customerCode : String
  earnedFreeDrink : Bool
deriving DecidableEq, Repr

/-- The `if (req.user)` block of the route: `addLoyaltyStamp()`; on an
earned free drink, mark the order free and re-run `calculateTotal`;
push the order ref and add `floor(total / 10)` loyalty points; save the
user.  Returns (possibly re-priced order, users after, earnedFreeDrink). -/
def applyLoyalty (users : List User) (auth : Option Nat) (o : Order) (orderRef : String) :
    Order × List User × Bool :=
  match auth with
  | none => (o, users, false)
  | some uid =>
    match findUser users uid with
    | none => (o, users, false)
    | some u =>
      let stamped := addLoyaltyStamp u
      let o1 := if stamped.1 then calculateTotal { o with isFreeDrink := true } else o
      let u2 : User :=
        { stamped.2 with
          orderHistory := stamped.2.orderHistory ++ [orderRef]
          loyaltyPoints := stamped.2.loyaltyPoints + o1.pricing.total / 10 }
      (o1, saveUser users uid u2, stamped.1)

/-- Embedding of `POST /api/orders/create`.  Inputs beyond the store: the optional
authenticated user id (`req.user`), the request body, the randomly
generated customer tracking code, and the current time.

Steps, as in the source: express-validator checks (five-character code,
instructions up to 200 characters); `findOne` of the code (upper-cased)
failing with `Invalid menu code`; expiry check failing with
`Menu code has expired`; construction of the order with
`cupSize: codeDoc.cupSize`, `pricing: { basePrice: 60 }` and
`paymentStatus: 'Paid'`; `calculateTotal`; the loyalty block for an
authenticated user; `order.save()`.

The route then calls `MenuCode.expireCode(menuCode)` — a method defined
nowhere in the codebase — inside its own `try`: the call throws, the
error is swallowed, and the code collection is left unchanged.  No stock
operation appears anywhere in the route. -/
def createOrder (store : Store) (auth : Option Nat) (req : CreateRequest)
    (customerCode : String) (now : Int) : Except CreateError CreateResult × Store :=
  if req.menuCode.length ≠ 5 ∨ 200 < req.specialInstructions.length then
    (Except.error CreateError.validationFailed, store)
  else
    match findCode store.codes req.menuCode with
    | none => (Except.error CreateError.invalidMenuCode, store)
    | some codeDoc =>
      if codeDoc.expiresAt < now then
        (Except.error CreateError.menuCodeExpired, store)
      else
        let order0 : Order :=
          { customerId := auth
            menuCode := toUpperStr req.menuCode
            customerCode := customerCode
            cupSize := codeDoc.cupSize
            flavor := req.flavor
            toppings := req.toppings
            pricing := { basePrice := 60, sizePrice := 0, toppingsPrice := 0, total := 0 }
            status := OrderStatus.Pending
            paymentStatus := PaymentStatus.Paid
            specialInstructions := req.specialInstructions
            timestamps := { ordered := now, prepared := none, ready := none, completed := none }
            isFreeDrink := false }
        let order1 := calculateTotal order0
        let loy := applyLoyalty store.users auth order1 customerCode
        (Except.ok { order := loy.1, customerCode := customerCode, earnedFreeDrink := loy.2.2 },
         { store with users := loy.2.1, orders := store.orders ++ [loy.1] })

/-- Whether the route answered 201 (success) rather than an error status. -/
def routeOk (p : Except CreateError CreateResult × Store) : Bool :=
  match p.1 with
  | Except.ok _ => true
  | Except.error _ => false

/-- Extract the successful result, with a fallback for the error case. -/
def routeResult (p : Except CreateError CreateResult × Store) (d : CreateResult) : CreateResult :=
  match p.1 with
  | Except.ok r => r
  | Except.error _ => d

/-! ## Concrete sample documents, used to instantiate the theorems -/

def mangoStock : Stock :=
  { itemType := ItemType.topping, name := "Mango", quantity := 5, reorderLevel := 2 }

def borderStock : Stock :=
  { itemType := ItemType.topping, name := "Mango", quantity := 20, reorderLevel := 20 }

def sampleCode : MenuCode :=
  { code := "TEST1", cupSize := CupSize.M, usageCount := 0, maxUsage := 5,
    usedBy := [], expiresAt := 100 }

def fullCode : MenuCode :=
  { code := "FULL1", cupSize := CupSize.M, usageCount := 5, maxUsage := 5,
    usedBy := [], expiresAt := 100 }

def usedExpiredCode : MenuCode :=
  { code := "USED1", cupSize := CupSize.S, usageCount := 2, maxUsage := 5,
    usedBy := [], expiresAt := 10 }

def freshExpiredCode : MenuCode :=
  { code := "FRSH1", cupSize := CupSize.L, usageCount := 0, maxUsage := 5,
    usedBy := [], expiresAt := 10 }

def sampleUser : User :=
  { id := 7, stamps := 3, totalFreeDrinks := 0, loyaltyPoints := 12, orderHistory := [] }

def sampleReq : CreateRequest :=
  { menuCode := "TEST1", flavor := "Strawberry",
    toppings := [{ name := "Mango", points := 0 }],
    specialInstructions := "", cupSize := none }

def fullReq : CreateRequest :=
  { menuCode := "FULL1", flavor := "Matcha", toppings := [],
    specialInstructions := "", cupSize := none }

def sampleStore : Store :=
  { stocks := [mangoStock], codes := [sampleCode], users := [sampleUser], orders := [] }

def fullStore : Store :=
  { stocks := [mangoStock], codes := [fullCode], users := [], orders := [] }

def sampleCompletedOrder : Order :=
  { customerId := none, menuCode := "TEST1", customerCode := "#AB123",
    cupSize := CupSize.M, flavor := "Matcha", toppings := [],
    pricing := { basePrice := 60, sizePrice := 10, toppingsPrice := 0, total := 70 },
    status := OrderStatus.Completed, paymentStatus := PaymentStatus.Paid,
    specialInstructions := "",
    timestamps := { ordered := 0, prepared := some 1, ready := some 2, completed := some 3 },
    isFreeDrink := false }

def dummyResult : CreateResult :=
  { order := sampleCompletedOrder, customerCode := "", earnedFreeDrink := false }

/-- The run of the creation route used by several witnesses: the sample
store, authenticated user 7, the sample request. -/
def sampleRun : Except CreateError CreateResult × Store :=
  createOrder sampleStore (some 7) sampleReq "#AB123" 0

def sampleRunResult : CreateResult := routeResult sampleRun dummyResult

def sampleRunStore : Store := sampleRun.2

/-! ## Helper lemmas -/

theorem mem_saveStock {stocks : List Stock} {t : ItemType} {n : String} {upd x : Stock}
    (hx : x ∈ saveStock stocks t n upd) : x ∈ stocks ∨ x = upd := by
  induction stocks with
  | nil => simp [saveStock] at hx
  | cons s rest ih =>
    simp only [saveStock] at hx
    split at hx
    · rcases List.mem_cons.mp hx with h | h
      · exact Or.inr h
      · exact Or.inl (List.mem_cons_of_mem _ h)
    · rcases List.mem_cons.mp hx with h | h
      · exact Or.inl (h ▸ List.mem_cons_self _ _)
      · rcases ih h with h1 | h1
        · exact Or.inl (List.mem_cons_of_mem _ h1)
        · exact Or.inr h1

/-! ## C2 — order pricing -/

/-- C2: for every order priced by the creation route (base price 60),
`calculateTotal` records the itemized breakdown and computes
`60 + sizeSurcharge(S:0, M:10, L:20) + 10 per topping`; for a free drink the
total is forced to 0 while the breakdown stays recorded. -/
theorem calculateTotal_pricing (o : Order) (h : o.pricing.basePrice = 60) :
    (calculateTotal o).pricing.basePrice = 60 ∧
    (calculateTotal o).pricing.sizePrice = sizePrices o.cupSize ∧
    (calculateTotal o).pricing.toppingsPrice = o.toppings.length * 10 ∧
    (o.isFreeDrink = false →
      (calculateTotal o).pricing.total = 60 + sizePrices o.cupSize + o.toppings.length * 10) ∧
    (o.isFreeDrink = true → (calculateTotal o).pricing.total = 0) := by
  cases hf : o.isFreeDrink <;> simp [calculateTotal, h, hf]

/-- Witness for C2: a concrete M-size order with no toppings is priced at 70. -/
theorem calculateTotal_pricing_witness :
    sampleCompletedOrder.pricing.basePrice = 60 ∧
    (calculateTotal sampleCompletedOrder).pricing.total =
      60 + sizePrices sampleCompletedOrder.cupSize + sampleCompletedOrder.toppings.length * 10 :=
  ⟨rfl, (calculateTotal_pricing sampleCompletedOrder rfl).2.2.2.1 rfl⟩

/-! ## C3 — status transitions -/

/-- Counterexample for C3: the spec-side transition relation rejects
`Completed → Preparing`, yet `updateStatus` performs it without any error. -/
theorem updateStatus_completed_to_preparing_not_rejected :
    specAllowedTransition OrderStatus.Completed OrderStatus.Preparing = false ∧
    (updateStatus sampleCompletedOrder OrderStatus.Preparing 5).status = OrderStatus.Preparing :=
  ⟨rfl, rfl⟩

/-- C3 (amended): `updateStatus` assigns any requested status
unconditionally — there is no transition check and no `InvalidTransition`
failure — stamping the timestamp matching the new status and leaving the
other fields unchanged. -/
theorem updateStatus_sets_any_status (o : Order) (s : OrderStatus) (now : Int) :
    (updateStatus o s now).status = s ∧
    (updateStatus o s now).timestamps.prepared =
      (if s = OrderStatus.Preparing then some now else o.timestamps.prepared) ∧
    (updateStatus o s now).timestamps.ready =
      (if s = OrderStatus.Ready then some now else o.timestamps.ready) ∧
    (updateStatus o s now).timestamps.completed =
      (if s = OrderStatus.Completed then some now else o.timestamps.completed) ∧
    (updateStatus o s now).timestamps.ordered = o.timestamps.ordered ∧
    (updateStatus o s now).pricing = o.pricing ∧
    (updateStatus o s now).paymentStatus = o.paymentStatus := by
  cases s <;> simp [updateStatus]

/-! ## C6 — stock decrement -/

/-- Counterexample for C6: with no matching item, `reduceStock` answers
`Except.ok none` — the JS returns `null` and does not fail with a
`NotFound` error. -/
theorem reduceStock_missing_item_is_not_an_error :
    reduceStock [mangoStock] ItemType.flavor "Matcha" 1 = (Except.ok none, [mangoStock]) := rfl

/-- C6 (amended): `reduceStock` returns `null` (success, not an error)
when no item matches, fails with `InsufficientStock` when
`quantity < amount` leaving the collection unchanged, and otherwise
subtracts the amount and persists; quantities never become negative. -/
theorem reduceStock_spec (stocks : List Stock) (t : ItemType) (n : String) (a : Int) :
    (findStock stocks t n = none → reduceStock stocks t n a = (Except.ok none, stocks)) ∧
    (∀ s, findStock stocks t n = some s → s.quantity < a →
      reduceStock stocks t n a = (Except.error (StockError.insufficientStock n), stocks)) ∧
    (∀ s, findStock stocks t n = some s → ¬ s.quantity < a →
      reduceStock stocks t n a =
        (Except.ok (some { s with quantity := s.quantity - a }),
          saveStock stocks t n { s with quantity := s.quantity - a })) ∧
    ((∀ s ∈ stocks, 0 ≤ s.quantity) → ∀ x ∈ (reduceStock stocks t n a).2, 0 ≤ x.quantity) := by
  refine ⟨?_, ?_, ?_, ?_⟩
  · intro h; simp [reduceStock, h]
  · intro s hs hlt; simp [reduceStock, hs, hlt]
  · intro s hs hge; simp [reduceStock, hs, hge]
  · intro hpos x hx
    cases hfind : findStock stocks t n with
    | none =>
      rw [show (reduceStock stocks t n a).2 = stocks by simp [reduceStock, hfind]] at hx
      exact hpos x hx
    | some s =>
      by_cases hlt : s.quantity < a
      · rw [show (reduceStock stocks t n a).2 = stocks by simp [reduceStock, hfind, hlt]] at hx
        exact hpos x hx
      · rw [show (reduceStock stocks t n a).2 =
            saveStock stocks t n { s with quantity := s.quantity - a } by
              simp [reduceStock, hfind, hlt]] at hx
        rcases mem_saveStock hx with h | h
        · exact hpos x h
        · have hs : s ∈ stocks := List.mem_of_find?_eq_some hfind
          have h0 : (0 : Int) ≤ s.quantity := hpos s hs
          rw [h]
          simp only []
          omega

/-- Witness for C6: decrementing the sample Mango stock by one succeeds
and subtracts one. -/
theorem reduceStock_spec_witness :
    findStock [mangoStock] ItemType.topping "Mango" = some mangoStock ∧
    ¬ mangoStock.quantity < 1 ∧
    reduceStock [mangoStock] ItemType.topping "Mango" 1 =
      (Except.ok (some { mangoStock with quantity := mangoStock.quantity - 1 }),
        saveStock [mangoStock] ItemType.topping "Mango"
          { mangoStock with quantity := mangoStock.quantity - 1 }) :=
  ⟨rfl, by decide,
   (reduceStock_spec [mangoStock] ItemType.topping "Mango" 1).2.2.1 mangoStock rfl (by decide)⟩

/-! ## C7 — low-stock query -/

/-- Counterexample for C7: the second source variant of
`getLowStockItems` returns an item whose quantity equals its reorder
level, which the claim's strict `<` excludes. -/
theorem lowStockLe_returns_item_at_threshold :
    getLowStockItemsLe [borderStock] = [borderStock] ∧
    ¬ borderStock.quantity < borderStock.reorderLevel :=
  ⟨rfl, by decide⟩

/-- C7 (amended): the repository holds two variants of the low-stock
query; the first returns exactly the items with `quantity < reorderLevel`,
the second exactly those with `quantity ≤ reorderLevel`. -/
theorem getLowStockItems_characterization (stocks : List Stock) (s : Stock) :
    (s ∈ getLowStockItems stocks ↔ s ∈ stocks ∧ s.quantity < s.reorderLevel) ∧
    (s ∈ getLowStockItemsLe stocks ↔ s ∈ stocks ∧ s.quantity ≤ s.reorderLevel) := by
  constructor <;> simp [getLowStockItems, getLowStockItemsLe, List.mem_filter]

/-- Witness for C7: the threshold item is in the `≤` variant's answer and
not in the `<` variant's. -/
theorem getLowStockItems_characterization_witness :
    borderStock ∈ getLowStockItemsLe [borderStock] ∧
    borderStock ∉ getLowStockItems [borderStock] :=
  ⟨(getLowStockItems_characterization [borderStock] borderStock).2.mpr ⟨by simp, by decide⟩,
   fun hmem =>
     absurd ((getLowStockItems_characterization [borderStock] borderStock).1.mp hmem).2
       (by decide)⟩

/-! ## C8 — cleanup of expired codes -/

/-- C8: `cleanupExpired` removes exactly the codes that are unused
(`usageCount = 0`) and past expiry, reports the number removed, and
retains every code with `usageCount ≥ 1`, expired or not. -/
theorem cleanupExpired_spec (codes : List MenuCode) (now : Int) :
    (∀ c, c ∈ (cleanupExpired codes now).1 ↔
      c ∈ codes ∧ ¬ (c.usageCount = 0 ∧ c.expiresAt < now)) ∧
    (cleanupExpired codes now).1.length + (cleanupExpired codes now).2 = codes.length ∧
    (∀ c ∈ codes, 1 ≤ c.usageCount → c ∈ (cleanupExpired codes now).1) := by
  have hmem : ∀ c, c ∈ (cleanupExpired codes now).1 ↔
      c ∈ codes ∧ ¬ (c.usageCount = 0 ∧ c.expiresAt < now) := by
    intro c
    simp only [cleanupExpired, cleanupTarget, List.mem_filter, Bool.not_eq_true',
      Bool.and_eq_false_iff, beq_eq_false_iff_ne, decide_eq_false_iff_not, not_and, not_lt]
    tauto
  refine ⟨hmem, ?_, ?_⟩
  · have key : ∀ (p : MenuCode → Bool) (l : List MenuCode),
        (l.filter (fun c => !p c)).length + l.countP p = l.length := by
      intro p l
      induction l with
      | nil => rfl
      | cons c cs ih =>
        by_cases h : p c = true <;>
          simp [List.filter_cons, List.countP_cons, h] <;> omega
    simpa [cleanupExpired] using key (cleanupTarget now) codes
  · intro c hc h1
    exact (hmem c).mpr ⟨hc, fun hb => by omega⟩

/-- Witness for C8: of one used expired code and one unused expired code,
the used one survives and exactly one code is deleted. -/
theorem cleanupExpired_spec_witness :
    usedExpiredCode ∈ (cleanupExpired [usedExpiredCode, freshExpiredCode] 50).1 ∧
    (cleanupExpired [usedExpiredCode, freshExpiredCode] 50).2 = 1 :=
  ⟨(cleanupExpired_spec [usedExpiredCode, freshExpiredCode] 50).2.2 usedExpiredCode
      (by simp) (by decide),
   rfl⟩

/-! ## C5 — usage-limit enforcement of `validateAndUse` -/

/-- Unfolding equation of `redeemTimes` at a successor. -/
theorem redeemTimes_succ (mc : MenuCode) (now : Int) (k : Nat) :
    redeemTimes mc now (k + 1) =
      match redeemTimes mc now k with
      | Except.error e => Except.error e
      | Except.ok m => useOnce m none now := rfl

/-- While the usage limit is not yet reached, each redemption of an
unexpired code succeeds, adding one use and one `usedBy` entry. -/
theorem redeemTimes_ok (mc : MenuCode) (now : Int) (hexp : ¬ mc.expiresAt < now)
    (n : Nat) (hn : mc.usageCount + n ≤ mc.maxUsage) :
    ∃ m, redeemTimes mc now n = Except.ok m ∧
      m.usageCount = mc.usageCount + n ∧
      m.usedBy.length = mc.usedBy.length + n ∧
      m.maxUsage = mc.maxUsage ∧ m.expiresAt = mc.expiresAt := by
  induction n with
  | zero => exact ⟨mc, rfl, by simp, by simp, rfl, rfl⟩
  | succ k ih =>
    obtain ⟨m, hm, hcount, hlen, hmax, hexpm⟩ := ih (by omega)
    have hnotexp : ¬ m.expiresAt < now := by rw [hexpm]; exact hexp
    have hguard : ¬ m.maxUsage ≤ m.usageCount := by omega
    have hstep2 : useOnce m none now = Except.ok
        ({ m with
          usageCount := m.usageCount + 1
          usedBy := m.usedBy ++ [({ order := none, usedAt := now } : UsedEntry)] } :
            MenuCode) := by
      simp [useOnce, hnotexp, hguard]
    exact ⟨({ m with
        usageCount := m.usageCount + 1
        usedBy := m.usedBy ++ [({ order := none, usedAt := now } : UsedEntry)] } : MenuCode),
      by rw [redeemTimes_succ, hm]; exact hstep2,
      by show m.usageCount + 1 = mc.usageCount + (k + 1); omega,
      by show (m.usedBy ++ [({ order := none, usedAt := now } : UsedEntry)]).length =
           mc.usedBy.length + (k + 1)
         simp [hlen]
         omega,
      hmax, hexpm⟩

/-- C5: a successful redemption adds exactly one use and one `usedBy`
entry and never pushes `usageCount` past `maxUsage`; any sequence of
redemptions keeps `usageCount ≤ maxUsage`; from a fresh unexpired code,
`maxUsage` redemptions all succeed and the next one fails with
`UsageLimitReached`; and a failed `validateAndUse` leaves the collection
(hence `usageCount`) unchanged. -/
theorem menuCode_usage_limit :
    (∀ (mc : MenuCode) (orderRef : Option String) (now : Int) (m : MenuCode),
      useOnce mc orderRef now = Except.ok m →
      m.usageCount = mc.usageCount + 1 ∧ m.usageCount ≤ mc.maxUsage ∧
      m.usedBy.length = mc.usedBy.length + 1) ∧
    (∀ (mc : MenuCode) (now : Int) (n : Nat) (m : MenuCode),
      redeemTimes mc now n = Except.ok m →
      m.maxUsage = mc.maxUsage ∧ (n = 0 ∨ m.usageCount ≤ mc.maxUsage)) ∧
    (∀ (mc : MenuCode) (now : Int), mc.usageCount = 0 → ¬ mc.expiresAt < now →
      (∃ m, redeemTimes mc now mc.maxUsage = Except.ok m ∧
        m.usageCount = mc.maxUsage ∧
        m.usedBy.length = mc.usedBy.length + mc.maxUsage) ∧
      redeemTimes mc now (mc.maxUsage + 1) = Except.error CodeError.usageLimitReached) ∧
    (∀ (codes : List MenuCode) (code : String) (orderRef : Option String) (now : Int)
        (e : CodeError),
      (validateAndUse codes code orderRef now).1 = Except.error e →
      (validateAndUse codes code orderRef now).2 = codes) := by
  have hstep : ∀ (mc : MenuCode) (orderRef : Option String) (now : Int) (m : MenuCode),
      useOnce mc orderRef now = Except.ok m →
      m.usageCount = mc.usageCount + 1 ∧ m.usageCount ≤ mc.maxUsage ∧
      m.usedBy.length = mc.usedBy.length + 1 ∧ m.maxUsage = mc.maxUsage := by
    intro mc orderRef now m h
    unfold useOnce at h
    split_ifs at h with h1 h2
    cases h
    refine ⟨rfl, ?_, ?_, rfl⟩
    · show mc.usageCount + 1 ≤ mc.maxUsage
      omega
    · show (mc.usedBy ++ [({ order := orderRef, usedAt := now } : UsedEntry)]).length =
        mc.usedBy.length + 1
      simp
  refine ⟨fun mc r now m h => ⟨(hstep mc r now m h).1, (hstep mc r now m h).2.1,
    (hstep mc r now m h).2.2.1⟩, ?_, ?_, ?_⟩
  · intro mc now n
    induction n with
    | zero =>
      intro m h
      injection h with h
      subst h
      exact ⟨rfl, Or.inl rfl⟩
    | succ k ih =>
      intro m h
      rw [redeemTimes_succ] at h
      cases hk : redeemTimes mc now k with
      | error e => rw [hk] at h; cases h
      | ok mp =>
        rw [hk] at h
        have hmax : mp.maxUsage = mc.maxUsage := (ih mp hk).1
        have hs := hstep mp none now m h
        refine ⟨by rw [hs.2.2.2, hmax], Or.inr ?_⟩
        rw [← hmax]
        exact hs.2.1
  · intro mc now h0 hexp
    obtain ⟨m, hm, hcount, hlen, hmax, hexpm⟩ :=
      redeemTimes_ok mc now hexp mc.maxUsage (by omega)
    refine ⟨⟨m, hm, by omega, by omega⟩, ?_⟩
    rw [redeemTimes_succ, hm]
    show useOnce m none now = Except.error CodeError.usageLimitReached
    have hnotexp : ¬ m.expiresAt < now := by rw [hexpm]; exact hexp
    have hguard : m.maxUsage ≤ m.usageCount := by omega
    simp [useOnce, hnotexp, hguard]
  · intro codes code orderRef now e h
    cases hf : findCode codes code with
    | none => simp [validateAndUse, hf]
    | some mc =>
      cases hu : useOnce mc orderRef now with
      | error e2 => simp [validateAndUse, hf, hu]
      | ok updated =>
        rw [show (validateAndUse codes code orderRef now).1 = Except.ok updated by
          simp [validateAndUse, hf, hu]] at h
        cases h

/-- Witness for C5: the fresh sample code (five allowed uses) is rejected
with `UsageLimitReached` on the sixth redemption. -/
theorem menuCode_usage_limit_witness :
    sampleCode.usageCount = 0 ∧ ¬ sampleCode.expiresAt < 0 ∧
    redeemTimes sampleCode 0 (sampleCode.maxUsage + 1) =
      Except.error CodeError.usageLimitReached :=
  ⟨rfl, by decide, (menuCode_usage_limit.2.2.1 sampleCode 0 rfl (by decide)).2⟩

/-! ## Helper lemmas about the creation route -/

theorem applyLoyalty_order_fields (users : List User) (auth : Option Nat) (o : Order)
    (ref : String) :
    (applyLoyalty users auth o ref).1.paymentStatus = o.paymentStatus ∧
    (applyLoyalty users auth o ref).1.cupSize = o.cupSize := by
  cases auth with
  | none => simp [applyLoyalty]
  | some uid =>
    cases hfu : findUser users uid with
    | none => simp [applyLoyalty, hfu]
    | some u =>
      by_cases hb : (addLoyaltyStamp u).1 = true <;>
        simp [applyLoyalty, hfu, hb, calculateTotal]

theorem addLoyaltyStamp_id (u : User) : (addLoyaltyStamp u).2.id = u.id := by
  unfold addLoyaltyStamp
  split_ifs <;> rfl

theorem findUser_id {users : List User} {uid : Nat} {u : User}
    (h : findUser users uid = some u) : u.id = uid := by
  have h2 : List.find? (fun x => x.id == uid) users = some u := h
  simpa using List.find?_some h2

theorem findUser_saveUser {users : List User} {uid : Nat} {u : User}
    (h : findUser users uid = some u) (upd : User) (hid : upd.id = uid) :
    findUser (saveUser users uid upd) uid = some upd := by
  induction users with
  | nil => simp [findUser] at h
  | cons v rest ih =>
    by_cases hv : v.id = uid
    · have hbv : (v.id == uid) = true := by simp [hv]
      have hbu : (upd.id == uid) = true := by simp [hid]
      simp [saveUser, hbv, findUser, List.find?, hbu]
    · have hbv : (v.id == uid) = false := by simp [hv]
      have hrest : findUser rest uid = some u := by
        have h2 : List.find? (fun x => x.id == uid) (v :: rest) = some u := h
        rwa [List.find?_cons, hbv] at h2
      have htail := ih hrest
      show List.find? (fun x => x.id == uid) (saveUser (v :: rest) uid upd) = some upd
      simp only [saveUser]
      rw [if_neg (show ¬ ((v.id == uid) = true) by simp [hv])]
      rw [List.find?_cons, hbv]
      exact htail

theorem applyLoyalty_users (users : List User) (uid : Nat) (u : User) (o : Order)
    (ref : String) (hfu : findUser users uid = some u) :
    (applyLoyalty users (some uid) o ref).2.1 =
      saveUser users uid
        ({ (addLoyaltyStamp u).2 with
          orderHistory := (addLoyaltyStamp u).2.orderHistory ++ [ref]
          loyaltyPoints := (addLoyaltyStamp u).2.loyaltyPoints +
            (applyLoyalty users (some uid) o ref).1.pricing.total / 10 } : User) := by
  simp only [applyLoyalty, hfu]

/-! ## C1 — order creation performs no stock or code side effects -/

/-- C1: for every input whatsoever, the creation route leaves the stock
collection and the menu-code collection exactly as they were — it never
decrements stock, and its attempt to touch the code calls the undefined
`MenuCode.expireCode` and swallows the resulting error.  In particular no
intermediate stock/code effect can exist for a rollback to be needed. -/
theorem createOrder_never_touches_stock_or_codes (store : Store) (auth : Option Nat)
    (req : CreateRequest) (cc : String) (now : Int) :
    (createOrder store auth req cc now).2.stocks = store.stocks ∧
    (createOrder store auth req cc now).2.codes = store.codes := by
  unfold createOrder
  split_ifs with h1
  · exact ⟨rfl, rfl⟩
  · cases findCode store.codes req.menuCode with
    | none => exact ⟨rfl, rfl⟩
    | some codeDoc =>
      by_cases h2 : codeDoc.expiresAt < now <;> simp [h2]

/-! ## C4 — code validation at order creation -/

/-- C4: the creation route accepts a code whose usage limit is exhausted:
the sample code has `usageCount = maxUsage = 5` and `validateAndUse`'s own
per-document check (`useOnce`) rejects it with `UsageLimitReached`, yet
the route — which never consults the usage count — creates the order. -/
theorem createOrder_accepts_exhausted_code :
    fullCode.maxUsage ≤ fullCode.usageCount ∧
    useOnce fullCode none 0 = Except.error CodeError.usageLimitReached ∧
    routeOk (createOrder fullStore none fullReq "#CD456" 0) = true ∧
    (createOrder fullStore none fullReq "#CD456" 0).2.orders.length = 1 :=
  ⟨by decide, rfl, rfl, rfl⟩

/-! ## C9 — orders are created paid, loyalty runs for authenticated customers -/

/-- C9: every successfully created order has `paymentStatus = 'Paid'`
from the moment of creation (guest or authenticated), and for an
authenticated customer found in the store the loyalty update (one stamp
via `addLoyaltyStamp`, the order appended to the history, and
`floor(total/10)` points) is applied to the stored user. -/
theorem createOrder_paid_and_loyalty (store : Store) (auth : Option Nat)
    (req : CreateRequest) (cc : String) (now : Int) (r : CreateResult) (s2 : Store)
    (h : createOrder store auth req cc now = (Except.ok r, s2)) :
    r.order.paymentStatus = PaymentStatus.Paid ∧
    (∀ uid u, auth = some uid → findUser store.users uid = some u →
      findUser s2.users uid = some
        ({ (addLoyaltyStamp u).2 with
          orderHistory := (addLoyaltyStamp u).2.orderHistory ++ [cc]
          loyaltyPoints := (addLoyaltyStamp u).2.loyaltyPoints +
            r.order.pricing.total / 10 } : User)) := by
  unfold createOrder at h
  split_ifs at h with hv
  · simp at h
  · cases hf : findCode store.codes req.menuCode with
    | none => rw [hf] at h; simp at h
    | some codeDoc =>
      rw [hf] at h
      by_cases hexp : codeDoc.expiresAt < now
      · simp [hexp] at h
      · simp only [hexp, if_false] at h
        rw [Prod.ext_iff] at h
        obtain ⟨hr, hs⟩ := h
        simp only [Except.ok.injEq] at hr
        subst hr
        subst hs
        constructor
        · exact (applyLoyalty_order_fields store.users auth _ cc).1
        · intro uid u hauth hfu
          subst hauth
          show findUser (applyLoyalty store.users (some uid) _ cc).2.1 uid = _
          rw [applyLoyalty_users store.users uid u _ cc hfu]
          exact findUser_saveUser hfu _
            (by rw [addLoyaltyStamp_id]; exact findUser_id hfu)

/-- Witness for C9: in the sample authenticated run the created order is
paid and user 7 received the loyalty update. -/
theorem createOrder_paid_and_loyalty_witness :
    sampleRunResult.order.paymentStatus = PaymentStatus.Paid ∧
    findUser sampleRunStore.users 7 = some
      ({ (addLoyaltyStamp sampleUser).2 with
        orderHistory := (addLoyaltyStamp sampleUser).2.orderHistory ++ ["#AB123"]
        loyaltyPoints := (addLoyaltyStamp sampleUser).2.loyaltyPoints +
          sampleRunResult.order.pricing.total / 10 } : User) :=
  have h := createOrder_paid_and_loyalty sampleStore (some 7) sampleReq "#AB123" 0
    sampleRunResult sampleRunStore rfl
  ⟨h.1, h.2 7 sampleUser rfl rfl⟩

/-! ## C10 — the order's cup size comes from the code alone -/

/-- C10: the cup size of every created order is the one bound to the
redeemed menu code, and a client-supplied `cupSize` field is ignored
entirely: the route's outcome is identical for every value of it. -/
theorem createOrder_cupSize_from_code :
    (∀ (store : Store) (auth : Option Nat) (req : CreateRequest) (cc : String) (now : Int)
        (r : CreateResult) (s2 : Store) (mc : MenuCode),
      createOrder store auth req cc now = (Except.ok r, s2) →
      findCode store.codes req.menuCode = some mc →
      r.order.cupSize = mc.cupSize) ∧
    (∀ (store : Store) (auth : Option Nat) (req : CreateRequest) (cc : String) (now : Int)
        (sz : Option CupSize),
      createOrder store auth ({ req with cupSize := sz } : CreateRequest) cc now =
        createOrder store auth req cc now) := by
  constructor
  · intro store auth req cc now r s2 mc h hf
    unfold createOrder at h
    split_ifs at h with hv
    · simp at h
    · rw [hf] at h
      by_cases hexp : mc.expiresAt < now
      · simp [hexp] at h
      · simp only [hexp, if_false] at h
        rw [Prod.ext_iff] at h
        obtain ⟨hr, hs⟩ := h
        simp only [Except.ok.injEq] at hr
        subst hr
        exact (applyLoyalty_order_fields store.users auth _ cc).2
  · intro store auth req cc now sz
    cases req
    rfl

/-- Witness for C10: in the sample run the created order's cup size is
the size bound to the sample code. -/
theorem createOrder_cupSize_from_code_witness :
    sampleRunResult.order.cupSize = sampleCode.cupSize :=
  createOrder_cupSize_from_code.1 sampleStore (some 7) sampleReq "#AB123" 0
    sampleRunResult sampleRunStore sampleCode rfl rfl

end Bingsu
